import Mathlib

set_option autoImplicit false

/-!
Verification of evaluator/value.go, the Liquid runtime value layer.

Host data (Go interface values) are modelled by `HostVal`; reflection
panics and evaluator aborts are modelled with `Except Panic`.  Records
cover structs, non-nil struct pointers and nil struct pointers, and
declared fields carry their exported flag, so the reflect panics on
accessing a field of a nil record and on reading an unexported field are
part of the model.  The modelled universe restricts the source as
follows: accessor and method bodies are total (a member that is reached
runs to its modelled outcome; panics raised inside application code are
out of scope, while every reflect-layer panic is modelled); accessor
results have interface kind (so a nil check on a result is well defined,
matching the conventional pair of a value and an error); map keys have
scalar kinds; Go type identity is collapsed to the kind-level `GoTy`
(unnamed types only).
-/

/-- GoTy is the modelled Go type of a non-nil interface value, at the
granularity the value layer inspects (reflect kinds, with the scalar kinds
kept apart so that type-checked map lookups and the exact int assertion in
the conversion to machine integers are faithful). -/
inductive GoTy where
  | boolT
  | intT
  | int8T
  | int64T
  | uintT
  | float64T
  | strT
  | arrayT
  | mapT
  | structT
  | ptrT
  | otherT
  deriving DecidableEq

mutual

/-- HostVal is a raw Go host datum as handed to the value layer: the
dynamic content of an interface value.  The nil constructor is the nil
interface; ptr covers pointer values; other stands for the kinds the
classifier does not recognize (chan, complex, func at top level, ...). -/
inductive HostVal where
  | nil
  | bool (b : Bool)
  | int (n : Int)
  | int8 (n : Int)
  | int64 (n : Int)
  | uint (n : Nat)
  | float64 (num : Int) (den : Nat)
  | str (s : String)
  | array (elems : List HostVal)
  | map (keyTy : GoTy) (entries : List (HostVal × HostVal))
  | strukt (s : StructVal)
  | ptr (t : PtrTarget)
  | other (id : Nat)

/-- PtrTarget describes what a pointer value points at: a struct (the
pointer is then itself classified as a record), nothing of a struct
element type (a nil struct pointer, also classified as a record, carrying
the reflective view of the element type whose field probes panic on the
zero value), a non-struct value (the classifier dereferences it), or
nothing of a non-struct element type (dereferencing it is a reflection
panic). -/
inductive PtrTarget where
  | toStruct (s : StructVal)
  | nilStruct (s : StructVal)
  | toOther (target : HostVal)
  | nilOther

/-- StructVal is a record instance together with the reflective view of
its type: methods in the value-receiver method set, the additional
pointer-receiver methods (visible only through a pointer), and named
fields. -/
inductive StructVal where
  | mk (valMethods : List (String × FuncVal)) (ptrMethods : List (String × FuncVal))
      (fields : List (String × FieldVal))

/-- FieldVal is the content of a named declared field, together with its
exported flag: either a func-kinded field (invoked like a method by
property resolution) or plain data.  The reflective by-name field lookup
finds unexported fields too, but reading or calling them panics. -/
inductive FieldVal where
  | funcField (exported : Bool) (f : FuncVal)
  | dataField (exported : Bool) (v : HostVal)

/-- FuncVal models a reflected func value: its nil-ness, its arity, and
the results a call produces.  Each result is interface-kinded: none is a
nil result, some v is a non-nil result whose interface content is v. -/
inductive FuncVal where
  | mk (isNil : Bool) (numIn : Nat) (outs : List (Option HostVal))

end

def FuncVal.isNil : FuncVal → Bool
  | .mk b _ _ => b

def FuncVal.numIn : FuncVal → Nat
  | .mk _ n _ => n

def FuncVal.outs : FuncVal → List (Option HostVal)
  | .mk _ _ o => o

def StructVal.valMethods : StructVal → List (String × FuncVal)
  | .mk v _ _ => v

def StructVal.ptrMethods : StructVal → List (String × FuncVal)
  | .mk _ p _ => p

def StructVal.fields : StructVal → List (String × FieldVal)
  | .mk _ _ f => f

/-- RecvState is the shape of the basis a record wraps: a struct value, a
non-nil pointer to a struct, or a nil pointer to a struct.  It determines
the consulted method set and whether field access reaches the zero
reflect value. -/
inductive RecvState where
  | byValue
  | byPtr
  | byNilPtr
  deriving DecidableEq

/-- Panic models the ways evaluation of the value layer can abort: the
conversion error raised by Int, a propagated accessor failure (the panic
on a non-nil second result), the runtime range panic on indexing an empty
result slice, the reflection panic on using an invalid (zero) reflect
value (a nil map probe, or field access through a nil record), the
reflection panic on a map lookup with a non-assignable key, the
reflection panic on reading or calling a value obtained from an
unexported field, and the panic on calling a value-receiver method
through a nil pointer. -/
inductive Panic where
  | conversionError (value : HostVal) (target : GoTy)
  | errorResult (payload : HostVal)
  | indexOutOfRange
  | reflectInvalid
  | notAssignable (probe : GoTy) (key : GoTy)
  | unexportedField
  | nilMethodReceiver

/-- Value is the closed set of wrapper shapes the source file builds:
wrapperValue, arrayValue, mapValue, stringValue and structValue (the last
over a struct, over a non-nil pointer to a struct, or - as structNilV -
over a nil pointer to a struct, which the classifier also wraps as a
record). -/
inductive Value where
  | wrapper (basis : HostVal)
  | arrayV (elems : List HostVal)
  | mapV (keyTy : GoTy) (entries : List (HostVal × HostVal))
  | stringV (s : String)
  | structV (isPtr : Bool) (s : StructVal)
  | structNilV (s : StructVal)

/-- GoVal is an argument to ValueOf: either a raw host datum or an
already classified Value (the Go argument type is the empty interface,
which can hold both). -/
inductive GoVal where
  | host (h : HostVal)
  | value (v : Value)

/-- Value.Interface returns the wrapped basis datum unchanged, as every
variant stores it (wrapperValue.Interface in the source; the variants for
arrays, maps, strings and structs embed wrapperValue). -/
def Value.Interface : Value → HostVal
  | .wrapper b => b
  | .arrayV es => .array es
  | .mapV k e => .map k e
  | .stringV s => .str s
  | .structV false s => .strukt s
  | .structV true s => .ptr (.toStruct s)
  | .structNilV s => .ptr (.nilStruct s)

/-- typeOfHost is the dynamic type of a host datum, none for the nil
interface (whose reflect value is the invalid zero value). -/
def typeOfHost : HostVal → Option GoTy
  | .nil => none
  | .bool _ => some .boolT
  | .int _ => some .intT
  | .int8 _ => some .int8T
  | .int64 _ => some .int64T
  | .uint _ => some .uintT
  | .float64 _ _ => some .float64T
  | .str _ => some .strT
  | .array _ => some .arrayT
  | .map _ _ => some .mapT
  | .strukt _ => some .structT
  | .ptr _ => some .ptrT
  | .other _ => some .otherT

/-- scalarEq is Go equality restricted to the scalar kinds the model
admits as map keys; distinct kinds and non-scalar shapes compare
unequal. -/
def scalarEq : HostVal → HostVal → Bool
  | .bool a, .bool b => a == b
  | .int a, .int b => a == b
  | .int8 a, .int8 b => a == b
  | .int64 a, .int64 b => a == b
  | .uint a, .uint b => a == b
  | .float64 a b, .float64 c d => a == c && b == d
  | .str a, .str b => a == b
  | _, _ => false

/-- isStr decides the Go interface comparison of a datum with a string
constant: true exactly for a string of that content. -/
def isStr (h : HostVal) (k : String) : Bool :=
  match h with
  | .str s => s == k
  | _ => false

def nilValue : Value := .wrapper .nil

def trueValue : Value := .wrapper (.bool true)

def falseValue : Value := .wrapper (.bool false)

def firstKey : String := "first"

def lastKey : String := "last"

def sizeKey : String := "size"

/-- classifyHost is ValueOf on a raw (non-Value) datum: nil and the two
booleans map to the shared singletons, scalar kinds to the plain wrapper,
strings, collections, maps and structs to their variants, a pointer to a
struct - nil or not - to a record over the pointer itself, any other
pointer to the classification of its target (a reflection panic when that
non-struct pointer is nil), and unrecognized kinds to the inert default
wrapper. -/
def classifyHost : HostVal → Except Panic Value
  | .nil => .ok nilValue
  | .bool true => .ok trueValue
  | .bool false => .ok falseValue
  | .int n => .ok (.wrapper (.int n))
  | .int8 n => .ok (.wrapper (.int8 n))
  | .int64 n => .ok (.wrapper (.int64 n))
  | .uint n => .ok (.wrapper (.uint n))
  | .float64 a b => .ok (.wrapper (.float64 a b))
  | .str s => .ok (.stringV s)
  | .array es => .ok (.arrayV es)
  | .map k e => .ok (.mapV k e)
  | .strukt s => .ok (.structV false s)
  | .ptr (.toStruct s) => .ok (.structV true s)
  | .ptr (.nilStruct s) => .ok (.structNilV s)
  | .ptr (.toOther v) => classifyHost v
  | .ptr .nilOther => .error .reflectInvalid
  | .other id => .ok (.wrapper (.other id))

/-- ValueOf classifies an arbitrary argument: an argument that is already
a Value is returned unchanged, a raw host datum is classified by kind. -/
def ValueOf : GoVal → Except Panic Value
  | .value v => .ok v
  | .host h => classifyHost h

/-- wrapperValue.Test is the shared truthiness test: the basis is truthy
unless it is the nil interface or the boolean false. -/
def wrapperValue.Test : HostVal → Bool
  | .nil => false
  | .bool false => false
  | _ => true

/-- Value.Test dispatches the truthiness test; every variant embeds
wrapperValue and thus tests its basis. -/
def Value.Test (v : Value) : Bool :=
  wrapperValue.Test v.Interface

/-- wrapperValue.Int converts the basis to a machine integer: it succeeds
only when the basis has exactly the Go type int, and otherwise aborts
with a conversion error naming the value and the target type. -/
def wrapperValue.Int : HostVal → Except Panic ℤ
  | .int n => .ok n
  | b => .error (.conversionError b .intT)

/-- Value.Int dispatches the integer conversion; every variant embeds
wrapperValue and thus converts its basis. -/
def Value.Int (v : Value) : Except Panic ℤ :=
  wrapperValue.Int v.Interface

/-- lookupName resolves a name in an association list, first match wins;
it models the reflective by-name lookups for methods and fields. -/
def lookupName {α : Type} (name : String) : List (String × α) → Option α
  | [] => none
  | (k, v) :: rest => if name == k then some v else lookupName name rest

/-- methodProvByName is the reflective method lookup on the type of the
basis: through a pointer (nil or not) the method set holds the
value-receiver and the pointer-receiver methods, through a struct value
only the value-receiver ones.  The returned flag records whether the hit
came from the value-receiver set, because calling a value-receiver method
through a nil pointer panics while a pointer-receiver method runs with a
nil receiver. -/
def methodProvByName (recv : RecvState) (s : StructVal) (name : String) :
    Option (Bool × FuncVal) :=
  match lookupName name s.valMethods with
  | some f => some (true, f)
  | none =>
    match recv with
    | .byValue => none
    | _ => (lookupName name s.ptrMethods).map (fun f => (false, f))

/-- structValue.invoke is the invocation bridge: a nil member yields the
nil value; a member taking arguments or returning more than two results
yields the nil value; otherwise the member is called, a non-nil second
result is propagated as a fatal abort, and else the first result is
classified - which is a range panic when the member returns no result at
all. -/
def structValue.invoke (fv : FuncVal) : Except Panic Value :=
  if fv.isNil then .ok nilValue
  else if 0 < fv.numIn ∨ 2 < fv.outs.length then .ok nilValue
  else
    match fv.outs with
    | [] => .error .indexOutOfRange
    | [r0] => classifyHost (r0.getD .nil)
    | _ :: some e :: _ => .error (.errorResult e)
    | r0 :: none :: _ => classifyHost (r0.getD .nil)

/-- structValue.invokeAborting is structValue.invoke on a reflected
member whose underlying call aborts for a reason carried by the reflect
value itself rather than by its results: a value obtained from an
unexported field panics when called, and a value-receiver method bound
through a nil pointer panics at the call.  The nil check and the
signature guard still come first, exactly as in invoke, so a nil or
malformed such member yields the nil value with no panic; the abort
replaces only the call itself.  invokeAborting with no abort is invoke
(lemma below). -/
def structValue.invokeAborting (callAbort : Option Panic) (fv : FuncVal) :
    Except Panic Value :=
  if fv.isNil then .ok nilValue
  else if 0 < fv.numIn ∨ 2 < fv.outs.length then .ok nilValue
  else
    match callAbort with
    | some p => .error p
    | none =>
      match fv.outs with
      | [] => .error .indexOutOfRange
      | [r0] => classifyHost (r0.getD .nil)
      | _ :: some e :: _ => .error (.errorResult e)
      | r0 :: none :: _ => classifyHost (r0.getD .nil)

/-- structValue.PropertyValue resolves a textual name on a record,
following the source line by line: a method on the basis type first (a
value-receiver method reached through a nil pointer aborts at the call);
then the pointer is unwrapped - to the zero reflect value for a nil
record - and a declared field is looked up on the element type: on a nil
record the field access itself panics on the zero value, otherwise an
exported func-kinded field is invoked, an exported data field is
classified and returned, and an unexported field panics when read or
called; then a trailing second method lookup on the element type (which
also panics on the zero value of a nil record, and is unreachable since
the value-receiver set was consulted first); and the nil value when
nothing resolves or the probe is not a string. -/
def structValue.PropertyValue (recv : RecvState) (s : StructVal) (index : Value) :
    Except Panic Value :=
  match index.Interface with
  | .str name =>
    match methodProvByName recv s name with
    | some (fromVal, m) =>
      structValue.invokeAborting
        (if recv = RecvState.byNilPtr ∧ fromVal = true then some Panic.nilMethodReceiver
         else none) m
    | none =>
      match lookupName name s.fields with
      | some fd =>
        match recv with
        | .byNilPtr => .error .reflectInvalid
        | _ =>
          match fd with
          | .funcField true f => structValue.invokeAborting none f
          | .funcField false f => structValue.invokeAborting (some .unexportedField) f
          | .dataField true v => classifyHost v
          | .dataField false _ => .error .unexportedField
      | none =>
        match lookupName name s.valMethods with
        | some m =>
          match recv with
          | .byNilPtr => .error .reflectInvalid
          | _ => structValue.invoke m
        | none => .ok nilValue
  | _ => .ok nilValue

/-- arrayValue.IndexValue indexes a sequence: only a probe of exact Go
type int applies; a negative index gets the length added; the classified
element is returned exactly when the resulting index is in range, and the
nil value otherwise. -/
def arrayValue.IndexValue (elems : List HostVal) (index : Value) : Except Panic Value :=
  match index.Interface with
  | .int n =>
    if 0 ≤ (if n < 0 then n + (elems.length : ℤ) else n) ∧
        (if n < 0 then n + (elems.length : ℤ) else n) < (elems.length : ℤ) then
      classifyHost (elems.getD (if n < 0 then n + (elems.length : ℤ) else n).toNat .nil)
    else .ok nilValue
  | _ => .ok nilValue

/-- mapValue.IndexValue looks a key up in a mapping: the probe must carry
a type (a nil probe makes the reflective type query panic); on an exact
key-type match the classified stored value is returned, an absent key or
a type mismatch yields the nil value. -/
def mapValue.IndexValue (keyTy : GoTy) (entries : List (HostVal × HostVal))
    (index : Value) : Except Panic Value :=
  match typeOfHost index.Interface with
  | none => .error .reflectInvalid
  | some t =>
    if t = keyTy then
      match List.find? (fun e => scalarEq e.1 index.Interface) entries with
      | some e => classifyHost e.2
      | none => .ok nilValue
    else .ok nilValue

/-- mapValue.Contains tests membership of a key: the probe must carry a
type (a nil probe makes the reflective type query panic); on an exact
key-type match it reports presence, on a mismatch it reports false. -/
def mapValue.Contains (keyTy : GoTy) (entries : List (HostVal × HostVal))
    (index : Value) : Except Panic Bool :=
  match typeOfHost index.Interface with
  | none => .error .reflectInvalid
  | some t =>
    if t = keyTy then
      .ok (List.find? (fun e => scalarEq e.1 index.Interface) entries).isSome
    else .ok false

/-- mapValue.PropertyValue looks a property name up in a mapping with no
preliminary type check: the lookup itself panics when the probe is nil or
its type is not assignable to the key type; a present key returns the
classified stored value, and only an absent key falls back to the size
pseudo-property before yielding the nil value. -/
def mapValue.PropertyValue (keyTy : GoTy) (entries : List (HostVal × HostVal))
    (index : Value) : Except Panic Value :=
  match typeOfHost index.Interface with
  | none => .error .reflectInvalid
  | some t =>
    if t = keyTy then
      match List.find? (fun e => scalarEq e.1 index.Interface) entries with
      | some e => classifyHost e.2
      | none =>
        if isStr index.Interface sizeKey then .ok (.wrapper (.int (entries.length : ℤ)))
        else .ok nilValue
    else .error (.notAssignable t keyTy)

/-- arrayValue.PropertyValue recognizes the pseudo-properties first, last
and size on a sequence; first and last yield the nil value on an empty
sequence, and any other probe yields the nil value. -/
def arrayValue.PropertyValue (elems : List HostVal) (index : Value) : Except Panic Value :=
  if isStr index.Interface firstKey then
    if 0 < elems.length then classifyHost (elems.getD 0 .nil) else .ok nilValue
  else if isStr index.Interface lastKey then
    if 0 < elems.length then classifyHost (elems.getD (elems.length - 1) .nil)
    else .ok nilValue
  else if isStr index.Interface sizeKey then .ok (.wrapper (.int (elems.length : ℤ)))
  else .ok nilValue

/-- stringValue.PropertyValue recognizes only the size pseudo-property on
a string, yielding its length; any other probe yields the nil value. -/
def stringValue.PropertyValue (s : String) (index : Value) : Except Panic Value :=
  if isStr index.Interface sizeKey then .ok (.wrapper (.int (s.length : ℤ)))
  else .ok nilValue

/-- Value.IndexValue dispatches indexing: sequences and mappings index,
records delegate to property resolution, and every other variant yields
the nil value through the shared default. -/
def Value.IndexValue : Value → Value → Except Panic Value
  | .wrapper _, _ => .ok nilValue
  | .arrayV es, i => arrayValue.IndexValue es i
  | .mapV k e, i => mapValue.IndexValue k e i
  | .stringV _, _ => .ok nilValue
  | .structV false s, i => structValue.PropertyValue .byValue s i
  | .structV true s, i => structValue.PropertyValue .byPtr s i
  | .structNilV s, i => structValue.PropertyValue .byNilPtr s i

/-- Value.PropertyValue dispatches property resolution per variant; the
plain wrapper yields the nil value through the shared default. -/
def Value.PropertyValue : Value → Value → Except Panic Value
  | .wrapper _, _ => .ok nilValue
  | .arrayV es, i => arrayValue.PropertyValue es i
  | .mapV k e, i => mapValue.PropertyValue k e i
  | .stringV s, i => stringValue.PropertyValue s i
  | .structV false s, i => structValue.PropertyValue .byValue s i
  | .structV true s, i => structValue.PropertyValue .byPtr s i
  | .structNilV s, i => structValue.PropertyValue .byNilPtr s i

/-- derefSpineOk holds when classification never dereferences a nil
pointer: the only classification panic is a nil non-struct pointer at
some depth of the pointer spine. -/
def derefSpineOk : HostVal → Bool
  | .ptr (.toOther v) => derefSpineOk v
  | .ptr .nilOther => false
  | _ => true

/-! Helper lemmas shared by the claim theorems. -/

theorem wrapperValue_Test_char (b : HostVal) :
    wrapperValue.Test b = false ↔ (b = HostVal.nil ∨ b = HostVal.bool false) := by
  cases b <;> try simp [wrapperValue.Test]
  rename_i bb
  cases bb <;> simp [wrapperValue.Test]

theorem invokeAborting_none (f : FuncVal) :
    structValue.invokeAborting none f = structValue.invoke f := by
  simp only [structValue.invokeAborting, structValue.invoke]

theorem valMethods_none_of_prov_none {recv : RecvState} {s : StructVal} {name : String}
    (h : methodProvByName recv s name = none) : lookupName name s.valMethods = none := by
  revert h
  unfold methodProvByName
  cases hv : lookupName name s.valMethods with
  | none => intro _; rfl
  | some f => intro h; simp at h

theorem classifyHost_isOk : ∀ h : HostVal, derefSpineOk h = true → (classifyHost h).isOk = true
  | .nil, _ => rfl
  | .bool true, _ => rfl
  | .bool false, _ => rfl
  | .int _, _ => rfl
  | .int8 _, _ => rfl
  | .int64 _, _ => rfl
  | .uint _, _ => rfl
  | .float64 _ _, _ => rfl
  | .str _, _ => rfl
  | .array _, _ => rfl
  | .map _ _, _ => rfl
  | .strukt _, _ => rfl
  | .ptr (.toStruct _), _ => rfl
  | .ptr (.nilStruct _), _ => rfl
  | .ptr (.toOther v), hd => classifyHost_isOk v (by simpa [derefSpineOk] using hd)
  | .ptr .nilOther, hd => by simp [derefSpineOk] at hd
  | .other _, _ => rfl

theorem arrayIndex_char (elems : List HostVal) (i : ℤ) :
    arrayValue.IndexValue elems (Value.wrapper (HostVal.int i)) =
      if 0 ≤ (if i < 0 then i + (elems.length : ℤ) else i) ∧
          (if i < 0 then i + (elems.length : ℤ) else i) < (elems.length : ℤ) then
        classifyHost (elems.getD (if i < 0 then i + (elems.length : ℤ) else i).toNat .nil)
      else Except.ok nilValue := rfl

/-- C4 (amended): classification is total on every host value except a nil
pointer of a non-record element type (at any depth of the pointer spine),
where dereferencing panics; a pointer to a record is itself classified as
a record, any other non-nil pointer is transparently dereferenced, nil is
classified to the nil singleton, and unrecognized kinds map to the inert
default wrapper. -/
theorem valueOf_classification_domain :
    (∀ s, classifyHost (HostVal.ptr (PtrTarget.toStruct s)) = Except.ok (Value.structV true s)) ∧
    (∀ v, classifyHost (HostVal.ptr (PtrTarget.toOther v)) = classifyHost v) ∧
    (∀ id, classifyHost (HostVal.other id) = Except.ok (Value.wrapper (HostVal.other id))) ∧
    (classifyHost HostVal.nil = Except.ok nilValue) ∧
    (∀ h : HostVal, derefSpineOk h = true → (classifyHost h).isOk = true) :=
  ⟨fun _ => rfl, fun _ => rfl, fun _ => rfl, rfl, classifyHost_isOk⟩

theorem valueOf_classification_domain_witness :
    (classifyHost (HostVal.ptr (PtrTarget.toOther (HostVal.int 5)))).isOk = true :=
  valueOf_classification_domain.2.2.2.2 (HostVal.ptr (PtrTarget.toOther (HostVal.int 5))) rfl

/-- C4 counterexample: classifying a nil pointer whose element type is not
a record (for example a nil pointer to int) dereferences the nil pointer
and panics, so classification is not total and does fail on this host
value, against the claim. -/
theorem valueOf_nil_pointer_panics :
    classifyHost (HostVal.ptr PtrTarget.nilOther) = Except.error Panic.reflectInvalid ∧
    (classifyHost (HostVal.ptr PtrTarget.nilOther)).isOk = false := ⟨rfl, rfl⟩

/-- C5: sequence indexing adds the length to a negative index, returns the
classified element exactly when the resulting index is in range and the
nil value otherwise; hence index -1 agrees with index n-1, and indices n
and -n-1 both give the nil value. -/
theorem arrayValue_indexValue_spec :
    ∀ (elems : List HostVal) (i : ℤ),
      (arrayValue.IndexValue elems (Value.wrapper (HostVal.int i)) =
        if 0 ≤ (if i < 0 then i + (elems.length : ℤ) else i) ∧
            (if i < 0 then i + (elems.length : ℤ) else i) < (elems.length : ℤ) then
          classifyHost (elems.getD (if i < 0 then i + (elems.length : ℤ) else i).toNat .nil)
        else Except.ok nilValue) ∧
      arrayValue.IndexValue elems (Value.wrapper (HostVal.int (-1))) =
        arrayValue.IndexValue elems (Value.wrapper (HostVal.int ((elems.length : ℤ) - 1))) ∧
      arrayValue.IndexValue elems (Value.wrapper (HostVal.int (elems.length : ℤ))) =
        Except.ok nilValue ∧
      arrayValue.IndexValue elems (Value.wrapper (HostVal.int (-(elems.length : ℤ) - 1))) =
        Except.ok nilValue := by
  intro elems i
  refine ⟨rfl, ?_, ?_, ?_⟩
  · rw [arrayIndex_char, arrayIndex_char]
    rcases elems with _ | ⟨a, rest⟩
    · norm_num
    · have hlen : (a :: rest).length = rest.length + 1 := List.length_cons a rest
      have h1 : ((-1 : ℤ) < 0) := by norm_num
      have h2 : ¬ ((((a :: rest).length : ℤ) - 1) < 0) := by omega
      rw [if_pos h1, if_neg h2]
      have h3 : (-1 : ℤ) + ((a :: rest).length : ℤ) = ((a :: rest).length : ℤ) - 1 := by ring
      rw [h3]
  · rw [arrayIndex_char]
    split_ifs <;> first | rfl | (exfalso; omega)
  · rw [arrayIndex_char]
    split_ifs <;> first | rfl | (exfalso; omega)

/-- C6: the truthiness test is false exactly on the nil value and the
boolean false value; every other classified value, including an empty
sequence, an empty mapping, an empty string and the number 0, tests
true. -/
theorem value_test_falsy_iff :
    (∀ v : Value, v.Test = false ↔ (v.Interface = HostVal.nil ∨ v.Interface = HostVal.bool false)) ∧
    (Value.arrayV []).Test = true ∧
    (Value.mapV GoTy.strT []).Test = true ∧
    (Value.stringV "").Test = true ∧
    (Value.wrapper (HostVal.int 0)).Test = true :=
  ⟨fun v => wrapperValue_Test_char v.Interface, rfl, rfl, rfl, rfl⟩

/-- C7 (amended): the integer conversion returns the wrapped integer
exactly when the basis has the default Go type int; for every other basis,
including the narrower and wider integer types, floats and non-numeric
data, it aborts with a conversion error naming the target type int and the
actual value. -/
theorem int_conversion_spec :
    (∀ n : ℤ, (Value.wrapper (HostVal.int n)).Int = Except.ok n) ∧
    (∀ v : Value, (∀ n : ℤ, v.Interface ≠ HostVal.int n) →
      v.Int = Except.error (Panic.conversionError v.Interface GoTy.intT)) := by
  refine ⟨fun n => rfl, fun v hv => ?_⟩
  show wrapperValue.Int v.Interface = Except.error (Panic.conversionError v.Interface GoTy.intT)
  cases hI : v.Interface <;> try rfl
  case int n => exact absurd hI (hv n)

theorem int_conversion_spec_witness :
    (Value.wrapper (HostVal.int 7)).Int = Except.ok 7 ∧
    (Value.wrapper (HostVal.float64 7 2)).Int =
      Except.error (Panic.conversionError (HostVal.float64 7 2) GoTy.intT) :=
  ⟨int_conversion_spec.1 7,
   int_conversion_spec.2 (Value.wrapper (HostVal.float64 7 2))
     (fun n h => by simp [Value.Interface] at h)⟩

/-- C7 counterexample: a value wrapping the integer 7 at the host width
int8 is an integer-typed host datum, yet the conversion does not return 7:
the exact type assertion on int fails and the conversion aborts, against
the claim that every host-specific integer width converts exactly. -/
theorem int_conversion_int8_fails :
    (Value.wrapper (HostVal.int8 7)).Int =
      Except.error (Panic.conversionError (HostVal.int8 7) GoTy.intT) ∧
    (Value.wrapper (HostVal.int8 7)).Int ≠ Except.ok 7 :=
  ⟨rfl, by simp [Value.Int, wrapperValue.Int, Value.Interface]⟩

/-- C8: classification is idempotent: an argument that is already a Value
is returned unchanged, and classifying the result of a classification
gives the same outcome as the single classification. -/
theorem valueOf_idempotent :
    (∀ v : Value, ValueOf (GoVal.value v) = Except.ok v) ∧
    (∀ g : GoVal,
      (match ValueOf g with
       | Except.ok v => ValueOf (GoVal.value v)
       | Except.error e => Except.error e) = ValueOf g) := by
  refine ⟨fun v => rfl, fun g => ?_⟩
  cases hv : ValueOf g <;> rfl

/-- C10: for every host datum that is not itself a Value and is not a
pointer to a non-record target, classification stores the original datum
as the basis and unwrapping returns it unchanged. -/
theorem valueOf_interface_roundtrip :
    ∀ h : HostVal, (∀ v, h ≠ HostVal.ptr (PtrTarget.toOther v)) →
      h ≠ HostVal.ptr PtrTarget.nilOther →
      Except.map Value.Interface (classifyHost h) = Except.ok h := by
  intro h h1 h2
  cases h <;> try rfl
  case bool b => cases b <;> rfl
  case ptr t =>
    cases t with
    | toStruct s => rfl
    | nilStruct s => rfl
    | toOther v => exact absurd rfl (h1 v)
    | nilOther => exact absurd rfl h2

theorem valueOf_interface_roundtrip_witness :
    Except.map Value.Interface (classifyHost (HostVal.bool true)) =
      Except.ok (HostVal.bool true) :=
  valueOf_interface_roundtrip (HostVal.bool true) (fun v h => by cases h) (by intro h; cases h)

/-- C1 (amended): for a mapping probed with a non-nil key whose type does
not match the declared key type, IndexValue yields the nil value and
Contains yields false without aborting, but PropertyValue aborts with the
reflection panic of a non-assignable map key; a nil probe makes all three
lookups abort on the invalid reflect value. -/
theorem mapValue_lookup_type_mismatch :
    (∀ (keyTy : GoTy) (entries : List (HostVal × HostVal)) (probe : Value) (t : GoTy),
       typeOfHost probe.Interface = some t → t ≠ keyTy →
       mapValue.IndexValue keyTy entries probe = Except.ok nilValue ∧
       mapValue.Contains keyTy entries probe = Except.ok false ∧
       mapValue.PropertyValue keyTy entries probe = Except.error (Panic.notAssignable t keyTy)) ∧
    (∀ (keyTy : GoTy) (entries : List (HostVal × HostVal)) (probe : Value),
       typeOfHost probe.Interface = none →
       mapValue.IndexValue keyTy entries probe = Except.error Panic.reflectInvalid ∧
       mapValue.Contains keyTy entries probe = Except.error Panic.reflectInvalid ∧
       mapValue.PropertyValue keyTy entries probe = Except.error Panic.reflectInvalid) := by
  constructor
  · intro keyTy entries probe t ht hne
    refine ⟨?_, ?_, ?_⟩ <;>
      simp [mapValue.IndexValue, mapValue.Contains, mapValue.PropertyValue, ht, hne]
  · intro keyTy entries probe ht
    refine ⟨?_, ?_, ?_⟩ <;>
      simp [mapValue.IndexValue, mapValue.Contains, mapValue.PropertyValue, ht]

theorem mapValue_lookup_type_mismatch_witness :
    mapValue.Contains GoTy.strT [(HostVal.str "a", HostVal.int 1)]
      (Value.wrapper (HostVal.bool true)) = Except.ok false :=
  (mapValue_lookup_type_mismatch.1 GoTy.strT [(HostVal.str "a", HostVal.int 1)]
    (Value.wrapper (HostVal.bool true)) GoTy.boolT rfl (by decide)).2.1

/-- C1 counterexample: probing the mapping from string to int that binds
the key a to 1 with the integer key 5 (a key whose type does not match the
declared key type) makes PropertyValue abort with a reflection panic
rather than soft-fail to the nil value, against the claim that all three
lookups soft-fail. -/
theorem mapValue_propertyValue_mismatch_panics :
    mapValue.PropertyValue GoTy.strT [(HostVal.str "a", HostVal.int 1)]
      (Value.wrapper (HostVal.int 5)) =
      Except.error (Panic.notAssignable GoTy.intT GoTy.strT) ∧
    mapValue.PropertyValue GoTy.strT [(HostVal.str "a", HostVal.int 1)]
      (Value.wrapper (HostVal.int 5)) ≠ Except.ok nilValue := by
  refine ⟨rfl, fun h => ?_⟩
  rw [show mapValue.PropertyValue GoTy.strT [(HostVal.str "a", HostVal.int 1)]
      (Value.wrapper (HostVal.int 5)) =
      Except.error (Panic.notAssignable GoTy.intT GoTy.strT) from rfl] at h
  cases h

/-- C2 (amended): the invocation bridge returns the nil value for an
unset member and for a member taking arguments or returning more than two
results, with no hard failure in either case; a member taking no argument
and returning one or two results has a non-nil second result propagated
unchanged as a fatal abort and otherwise its first result classified and
returned; but a member taking no argument and returning no result at all
passes the signature guard and aborts with a range panic. -/
theorem structValue_invoke_contract :
    ∀ f : FuncVal,
      (f.isNil = true → structValue.invoke f = Except.ok nilValue) ∧
      (f.isNil = false → (0 < f.numIn ∨ 2 < f.outs.length) →
        structValue.invoke f = Except.ok nilValue) ∧
      (∀ r0 e, f.isNil = false → f.numIn = 0 → f.outs = [r0, some e] →
        structValue.invoke f = Except.error (Panic.errorResult e)) ∧
      (∀ r0, f.isNil = false → f.numIn = 0 → (f.outs = [r0] ∨ f.outs = [r0, none]) →
        structValue.invoke f = classifyHost (r0.getD HostVal.nil)) ∧
      (f.isNil = false → f.numIn = 0 → f.outs = [] →
        structValue.invoke f = Except.error Panic.indexOutOfRange) := by
  intro f
  obtain ⟨b, nIn, outs⟩ := f
  refine ⟨?_, ?_, ?_, ?_, ?_⟩
  · intro hb
    simp only [FuncVal.isNil] at hb
    subst hb
    rfl
  · intro hb hgt
    simp only [FuncVal.isNil] at hb
    subst hb
    simp only [structValue.invoke, FuncVal.isNil, FuncVal.numIn, FuncVal.outs] at hgt ⊢
    rw [if_neg (by simp), if_pos hgt]
  · intro r0 e hb hn ho
    simp only [FuncVal.isNil] at hb
    simp only [FuncVal.numIn] at hn
    simp only [FuncVal.outs] at ho
    subst hb; subst hn; subst ho
    rfl
  · intro r0 hb hn ho
    simp only [FuncVal.isNil] at hb
    simp only [FuncVal.numIn] at hn
    simp only [FuncVal.outs] at ho
    subst hb; subst hn
    rcases ho with ho | ho <;> (subst ho; rfl)
  · intro hb hn ho
    simp only [FuncVal.isNil] at hb
    simp only [FuncVal.numIn] at hn
    simp only [FuncVal.outs] at ho
    subst hb; subst hn; subst ho
    rfl

theorem structValue_invoke_contract_witness :
    structValue.invoke
      (FuncVal.mk false 0 [some (HostVal.int 1), some (HostVal.str "boom")]) =
      Except.error (Panic.errorResult (HostVal.str "boom")) :=
  (structValue_invoke_contract
    (FuncVal.mk false 0 [some (HostVal.int 1), some (HostVal.str "boom")])).2.2.1
    (some (HostVal.int 1)) (HostVal.str "boom") rfl rfl rfl

/-- C2 counterexample: a non-nil member taking no argument and returning
no result satisfies the claimed zero-argument at-most-two-result contract
and produces no failing second result, so under the claim its first
result would be classified and returned without a hard failure; instead
the invocation aborts with the range panic on the empty result slice, and
not through the failure-propagation path. -/
theorem structValue_invoke_zero_results_aborts :
    structValue.invoke (FuncVal.mk false 0 []) = Except.error Panic.indexOutOfRange ∧
    ∀ e, structValue.invoke (FuncVal.mk false 0 []) ≠
      Except.error (Panic.errorResult e) := by
  refine ⟨rfl, fun e h => ?_⟩
  rw [show structValue.invoke (FuncVal.mk false 0 []) =
    Except.error Panic.indexOutOfRange from rfl] at h
  simp at h

/-- C3 (amended): record property resolution on a textual name runs
method before field; on a record over a struct or a non-nil struct
pointer a declared method is invoked and its result returned, a declared
exported data field is classified and returned, a declared exported
func-kinded field is invoked instead, and a declared unexported field
aborts with a reflect panic when read or called; on a record over a nil
struct pointer a declared value-receiver method aborts at the call, a
declared pointer-receiver method is invoked with the nil receiver, and
any declared field name aborts with the zero-value reflect panic; the
trailing second method lookup is unreachable since the value-receiver set
is consulted first; a name declaring neither a method nor a field yields
the nil value. -/
theorem structValue_propertyValue_resolution :
    ∀ (recv : RecvState) (s : StructVal) (name : String),
      (∀ m, methodProvByName recv s name = some (true, m) → recv ≠ RecvState.byNilPtr →
        structValue.PropertyValue recv s (Value.stringV name) = structValue.invoke m) ∧
      (∀ m, methodProvByName recv s name = some (false, m) →
        structValue.PropertyValue recv s (Value.stringV name) = structValue.invoke m) ∧
      (∀ m, methodProvByName RecvState.byNilPtr s name = some (true, m) →
        structValue.PropertyValue RecvState.byNilPtr s (Value.stringV name) =
          structValue.invokeAborting (some Panic.nilMethodReceiver) m) ∧
      (∀ v, methodProvByName recv s name = none → recv ≠ RecvState.byNilPtr →
        lookupName name s.fields = some (FieldVal.dataField true v) →
        structValue.PropertyValue recv s (Value.stringV name) = classifyHost v) ∧
      (∀ f, methodProvByName recv s name = none → recv ≠ RecvState.byNilPtr →
        lookupName name s.fields = some (FieldVal.funcField true f) →
        structValue.PropertyValue recv s (Value.stringV name) = structValue.invoke f) ∧
      (∀ v, methodProvByName recv s name = none → recv ≠ RecvState.byNilPtr →
        lookupName name s.fields = some (FieldVal.dataField false v) →
        structValue.PropertyValue recv s (Value.stringV name) =
          Except.error Panic.unexportedField) ∧
      (∀ f, methodProvByName recv s name = none → recv ≠ RecvState.byNilPtr →
        lookupName name s.fields = some (FieldVal.funcField false f) →
        structValue.PropertyValue recv s (Value.stringV name) =
          structValue.invokeAborting (some Panic.unexportedField) f) ∧
      (∀ fd, methodProvByName RecvState.byNilPtr s name = none →
        lookupName name s.fields = some fd →
        structValue.PropertyValue RecvState.byNilPtr s (Value.stringV name) =
          Except.error Panic.reflectInvalid) ∧
      (methodProvByName recv s name = none → lookupName name s.fields = none →
        lookupName name s.valMethods = none ∧
        structValue.PropertyValue recv s (Value.stringV name) = Except.ok nilValue) := by
  intro recv s name
  refine ⟨fun m hm hr => ?_, fun m hm => ?_, fun m hm => ?_, fun v hm hr hf => ?_,
    fun f hm hr hf => ?_, fun v hm hr hf => ?_, fun f hm hr hf => ?_,
    fun fd hm hf => ?_, fun hm hf => ?_⟩
  · simp [structValue.PropertyValue, Value.Interface, hm, hr, invokeAborting_none]
  · simp [structValue.PropertyValue, Value.Interface, hm, invokeAborting_none]
  · simp [structValue.PropertyValue, Value.Interface, hm]
  · cases recv with
    | byNilPtr => exact absurd rfl hr
    | byValue => simp [structValue.PropertyValue, Value.Interface, hm, hf]
    | byPtr => simp [structValue.PropertyValue, Value.Interface, hm, hf]
  · cases recv with
    | byNilPtr => exact absurd rfl hr
    | byValue => simp [structValue.PropertyValue, Value.Interface, hm, hf, invokeAborting_none]
    | byPtr => simp [structValue.PropertyValue, Value.Interface, hm, hf, invokeAborting_none]
  · cases recv with
    | byNilPtr => exact absurd rfl hr
    | byValue => simp [structValue.PropertyValue, Value.Interface, hm, hf]
    | byPtr => simp [structValue.PropertyValue, Value.Interface, hm, hf]
  · cases recv with
    | byNilPtr => exact absurd rfl hr
    | byValue => simp [structValue.PropertyValue, Value.Interface, hm, hf]
    | byPtr => simp [structValue.PropertyValue, Value.Interface, hm, hf]
  · simp [structValue.PropertyValue, Value.Interface, hm, hf]
  · have hv := valMethods_none_of_prov_none hm
    refine ⟨hv, ?_⟩
    cases recv <;> simp [structValue.PropertyValue, Value.Interface, hm, hf, hv]

theorem structValue_propertyValue_resolution_witness :
    structValue.PropertyValue RecvState.byValue
      (StructVal.mk [("Name", FuncVal.mk false 0 [some (HostVal.str "m")])] []
        [("Name", FieldVal.dataField true (HostVal.str "f"))])
      (Value.stringV "Name") =
      structValue.invoke (FuncVal.mk false 0 [some (HostVal.str "m")]) :=
  (structValue_propertyValue_resolution RecvState.byValue
    (StructVal.mk [("Name", FuncVal.mk false 0 [some (HostVal.str "m")])] []
      [("Name", FieldVal.dataField true (HostVal.str "f"))]) "Name").1
    (FuncVal.mk false 0 [some (HostVal.str "m")]) rfl (by decide)

/-- C3 counterexample: probing a declared field name on a record over a
nil struct pointer aborts with the zero-value reflect panic instead of
returning the classified field value, and probing a declared unexported
field on an ordinary struct record aborts with the unexported-field
reflect panic instead of returning its classified value - against the
universal claim that a declared field of the probed name has its
classified value returned. -/
theorem structValue_field_access_panics :
    structValue.PropertyValue RecvState.byNilPtr
      (StructVal.mk [] [] [("Name", FieldVal.dataField true (HostVal.int 1))])
      (Value.stringV "Name") = Except.error Panic.reflectInvalid ∧
    structValue.PropertyValue RecvState.byNilPtr
      (StructVal.mk [] [] [("Name", FieldVal.dataField true (HostVal.int 1))])
      (Value.stringV "Name") ≠ Except.ok (Value.wrapper (HostVal.int 1)) ∧
    structValue.PropertyValue RecvState.byValue
      (StructVal.mk [] [] [("age", FieldVal.dataField false (HostVal.int 2))])
      (Value.stringV "age") = Except.error Panic.unexportedField := by
  refine ⟨rfl, fun h => ?_, rfl⟩
  rw [show structValue.PropertyValue RecvState.byNilPtr
      (StructVal.mk [] [] [("Name", FieldVal.dataField true (HostVal.int 1))])
      (Value.stringV "Name") = Except.error Panic.reflectInvalid from rfl] at h
  cases h

/-- C9 (amended): sequences recognize exactly first, last and size, with
first and last giving the nil value on an empty sequence, size giving the
element count and every other name the nil value; strings recognize only
size, giving the length; for a mapping whose declared key type is the
string type the name is tried as a key first and size is answered as the
entry count only as a fallback on an absent key; for a mapping with any
other key type a textual probe panics on the non-assignable key instead
of being answered. -/
theorem pseudo_property_protocol :
    (∀ elems : List HostVal,
      arrayValue.PropertyValue elems (Value.stringV firstKey) =
        match elems with
        | [] => Except.ok nilValue
        | x :: _ => classifyHost x) ∧
    (∀ elems : List HostVal,
      arrayValue.PropertyValue elems (Value.stringV lastKey) =
        match elems with
        | [] => Except.ok nilValue
        | _ :: _ => classifyHost (elems.getD (elems.length - 1) .nil)) ∧
    (∀ elems : List HostVal,
      arrayValue.PropertyValue elems (Value.stringV sizeKey) =
        Except.ok (Value.wrapper (HostVal.int (elems.length : ℤ)))) ∧
    (∀ (elems : List HostVal) (name : String),
      name ≠ firstKey → name ≠ lastKey → name ≠ sizeKey →
      arrayValue.PropertyValue elems (Value.stringV name) = Except.ok nilValue) ∧
    (∀ s : String,
      stringValue.PropertyValue s (Value.stringV sizeKey) =
        Except.ok (Value.wrapper (HostVal.int (s.length : ℤ)))) ∧
    (∀ (s : String) (name : String), name ≠ sizeKey →
      stringValue.PropertyValue s (Value.stringV name) = Except.ok nilValue) ∧
    (∀ (entries : List (HostVal × HostVal)) (name : String),
      mapValue.PropertyValue GoTy.strT entries (Value.stringV name) =
        match List.find? (fun e => scalarEq e.1 (HostVal.str name)) entries with
        | some e => classifyHost e.2
        | none =>
          if name = sizeKey then Except.ok (Value.wrapper (HostVal.int (entries.length : ℤ)))
          else Except.ok nilValue) ∧
    (∀ (keyTy : GoTy) (entries : List (HostVal × HostVal)) (name : String),
      keyTy ≠ GoTy.strT →
      mapValue.PropertyValue keyTy entries (Value.stringV name) =
        Except.error (Panic.notAssignable GoTy.strT keyTy)) := by
  refine ⟨fun elems => ?_, fun elems => ?_, fun elems => ?_, fun elems name h1 h2 h3 => ?_,
    fun s => ?_, fun s name h1 => ?_, fun entries name => ?_, fun keyTy entries name hk => ?_⟩
  · rcases elems with _ | ⟨a, rest⟩
    · rfl
    · simp [arrayValue.PropertyValue, Value.Interface, isStr, firstKey, List.getD]
  · rcases elems with _ | ⟨a, rest⟩
    · rfl
    · simp [arrayValue.PropertyValue, Value.Interface, isStr, firstKey, lastKey]
  · rfl
  · simp [arrayValue.PropertyValue, Value.Interface, isStr, beq_iff_eq, h1, h2, h3]
  · rfl
  · simp [stringValue.PropertyValue, Value.Interface, isStr, beq_iff_eq, h1]
  · simp only [mapValue.PropertyValue, Value.Interface, typeOfHost]
    rw [if_pos trivial]
    cases hf : List.find? (fun e => scalarEq e.1 (HostVal.str name)) entries with
    | some e => rfl
    | none =>
      by_cases hs : name = sizeKey
      · subst hs
        simp [isStr]
      · simp [isStr, beq_iff_eq, hs]
  · simp only [mapValue.PropertyValue, Value.Interface, typeOfHost]
    exact if_neg (Ne.symm hk)

theorem pseudo_property_protocol_witness :
    arrayValue.PropertyValue [HostVal.int 10] (Value.stringV "color") = Except.ok nilValue ∧
    mapValue.PropertyValue GoTy.intT [] (Value.stringV "first") =
      Except.error (Panic.notAssignable GoTy.strT GoTy.intT) :=
  ⟨pseudo_property_protocol.2.2.2.1 [HostVal.int 10] "color" (by decide) (by decide) (by decide),
   pseudo_property_protocol.2.2.2.2.2.2.2 GoTy.intT [] "first" (by decide)⟩

/-- C9 counterexample: on a mapping with the integer key type, asking for
the size property does not answer the entry count as a fallback: the
textual probe is not assignable to the key type and the lookup panics
before any fallback, against the claim that for every mapping size is
answered when the key is absent. -/
theorem mapValue_size_wrong_key_type_panics :
    mapValue.PropertyValue GoTy.intT [] (Value.stringV "size") =
      Except.error (Panic.notAssignable GoTy.strT GoTy.intT) ∧
    mapValue.PropertyValue GoTy.intT [] (Value.stringV "size") ≠
      Except.ok (Value.wrapper (HostVal.int 0)) := by
  refine ⟨rfl, fun h => ?_⟩
  rw [show mapValue.PropertyValue GoTy.intT [] (Value.stringV "size") =
    Except.error (Panic.notAssignable GoTy.strT GoTy.intT) from rfl] at h
  cases h
